import Mathlib

/-!
Verification of the SFBAudioUtilities ring-buffer and byte-stream components.

The development embeds, in order:
* `ASBD` — the audio format descriptor (`SFBAudioStreamBasicDescription.hpp`)
  together with the accessors `IsInterleaved`, `InterleavedChannelCount` and
  `ChannelStreamCount`;
* `SFBCARingBuffer` — the timestamp-addressed audio ring buffer.  The header
  `SFBCARingBuffer.hpp` (the inline accessors `CapacityFrames`,
  `FrameByteOffset`, `StartTime`, `EndTime`, the `TimeBounds` queue layout and
  its constants) is embedded directly; the out-of-line member function bodies
  (`Allocate`, `SetTimeBounds`, `GetTimeBounds`, `ClampTimesToBounds`, `Read`,
  `Write`) are not part of the available sources and are modelled from the
  specification, as marked in their doc comments;
* `SFBRingBuffer` — the generic byte ring buffer (header only in the sources;
  the cursor discipline is modelled from the specification);
* `SFBAllocateAudioBufferList` — from `SFBAudioBufferList.cpp` (full source),
  with `UInt32` arithmetic made explicit;
* `SFB.ByteStream` — from `SFBByteStream.hpp` (full source).

Storage in the audio ring buffer is modelled at frame granularity: one frame
(`List Nat`, the frame's bytes) per channel per slot, where the slot of the
absolute frame time `t` is `t mod capacityFrames`.  The byte-level address
computation of the code, `(frameNumber & mCapacityFramesMask) * bytesPerFrame`,
is embedded separately as `FrameByteOffset` and related to the frame-granular
addressing by the claim-4 theorem.
-/

/-- Two's-complement bit pattern of an `int64` value, as a natural number.
`(n % 2^64).toNat` is the `uint64` image of `n` under C++ conversion. -/
def int64Bits (n : Int) : Nat := (n % (2 : Int) ^ 64).toNat

/-- The storage slot of absolute frame time `t` in a buffer of `cap` frames:
true mathematical `t mod cap` (nonnegative). -/
def frameSlot (t : Int) (cap : Nat) : Nat := (t % (cap : Int)).toNat

/-- A frame of silence: `bpf` zero bytes. -/
def silenceFrame (bpf : Nat) : List Nat := List.replicate bpf 0

/-- Writes `n` consecutive frames starting at absolute time `t` into
frame-granular channel storage: frame `i` of channel `c` (taken from
`data c i`) goes to slot `frameSlot (t + i) cap`.  This is the frame-level
rendering of the two-`memcpy` wrap-around copy the implementation performs
per channel. -/
def writeRange (store : Nat → Nat → List Nat) (cap : Nat) (t : Int)
    (data : Nat → Nat → List Nat) : Nat → Nat → Nat → List Nat
  | 0 => store
  | n + 1 => fun c slot =>
      if slot = frameSlot (t + (n : Int)) cap then data c n
      else writeRange store cap t data n c slot

/-- Audio format descriptor: the fields of `AudioStreamBasicDescription`
consumed by this code.  `mFormatFlagIsNonInterleaved` models the
`kAudioFormatFlagIsNonInterleaved` bit of `mFormatFlags`. -/
structure ASBD where
  mBytesPerFrame : Nat
  mChannelsPerFrame : Nat
  mFormatFlagIsNonInterleaved : Bool

/-- `IsInterleaved`: `!(kAudioFormatFlagIsNonInterleaved & mFormatFlags)`. -/
def ASBD.IsInterleaved (f : ASBD) : Bool := !f.mFormatFlagIsNonInterleaved

/-- `InterleavedChannelCount`: `IsInterleaved() ? mChannelsPerFrame : 1`. -/
def ASBD.InterleavedChannelCount (f : ASBD) : Nat :=
  if f.IsInterleaved then f.mChannelsPerFrame else 1

/-- `ChannelStreamCount`: `IsInterleaved() ? 1 : mChannelsPerFrame`. -/
def ASBD.ChannelStreamCount (f : ASBD) : Nat :=
  if f.IsInterleaved then 1 else f.mChannelsPerFrame

/-- One entry of the time-bounds queue (`SFBCARingBuffer::TimeBounds`). -/
structure TimeBoundsEntry where
  mStartTime : Int
  mEndTime : Int
  mUpdateCounter : Nat
deriving DecidableEq

/-- The number of elements in the time-bounds queue (`sTimeBoundsQueueSize`). -/
def sTimeBoundsQueueSize : Nat := 32

/-- Mask used to wrap time-bounds counters (`sTimeBoundsQueueMask = size - 1`). -/
def sTimeBoundsQueueMask : Nat := sTimeBoundsQueueSize - 1

/-- The queue slot selected by a counter value: `counter & sTimeBoundsQueueMask`. -/
def tbSlot (c : Nat) : Nat := Nat.land c sTimeBoundsQueueMask

/-- The state of an allocated `SFBCARingBuffer`.  `mBuffers` is the
frame-granular channel storage (channel → slot → frame bytes); the remaining
fields mirror the C++ data members. -/
structure SFBCARingBuffer where
  mBytesPerFrame : Nat
  mChannelStreamCount : Nat
  mCapacityFrames : Nat
  mCapacityFramesMask : Nat
  mBuffers : Nat → Nat → List Nat
  mTimeBoundsQueue : Nat → TimeBoundsEntry
  mTimeBoundsQueueCounter : Nat

/-- `CapacityFrames()` accessor. -/
def SFBCARingBuffer.CapacityFrames (st : SFBCARingBuffer) : Nat :=
  st.mCapacityFrames

/-- `FrameByteOffset(frameNumber)`:
`(frameNumber & mCapacityFramesMask) * mFormat.mBytesPerFrame`, where the
`int64` frame number is converted to its `uint64` bit pattern by the `&`
against the `size_t` mask. -/
def SFBCARingBuffer.FrameByteOffset (st : SFBCARingBuffer) (frameNumber : Int) : Nat :=
  Nat.land (int64Bits frameNumber) st.mCapacityFramesMask * st.mBytesPerFrame

/-- `StartTime()`: the start time stored in the queue slot of the current
counter value. -/
def SFBCARingBuffer.StartTime (st : SFBCARingBuffer) : Int :=
  (st.mTimeBoundsQueue (tbSlot st.mTimeBoundsQueueCounter)).mStartTime

/-- `EndTime()`: the end time stored in the queue slot of the current counter
value. -/
def SFBCARingBuffer.EndTime (st : SFBCARingBuffer) : Int :=
  (st.mTimeBoundsQueue (tbSlot st.mTimeBoundsQueueCounter)).mEndTime

/-- Modelled from the spec: `SetTimeBounds` (body not in the sources).  The
counter is incremented and the entry for the new window is written into slot
`counter & sTimeBoundsQueueMask` with the new counter as its generation
stamp. -/
def SFBCARingBuffer.SetTimeBounds (st : SFBCARingBuffer) (startTime endTime : Int) :
    SFBCARingBuffer :=
  let next := st.mTimeBoundsQueueCounter + 1
  { st with
    mTimeBoundsQueue := fun i =>
      if i = tbSlot next then ⟨startTime, endTime, next⟩ else st.mTimeBoundsQueue i
    mTimeBoundsQueueCounter := next }

/-- One reader observation used by the `GetTimeBounds` snapshot loop: the
counter value loaded, paired with the contents read from that counter's
queue slot. -/
def SFBCARingBuffer.observeTimeBounds (st : SFBCARingBuffer) : Nat × TimeBoundsEntry :=
  (st.mTimeBoundsQueueCounter,
   st.mTimeBoundsQueue (tbSlot st.mTimeBoundsQueueCounter))

/-- Modelled from the spec: the retry loop of `GetTimeBounds` over a list of
observations (one per attempt).  An observation is accepted only when the
entry's generation stamp equals the counter it was read under; otherwise the
read retries with the next observation, failing when the attempts are
exhausted. -/
def getTimeBoundsLoop : List (Nat × TimeBoundsEntry) → Option (Int × Int)
  | [] => none
  | (c, entry) :: rest =>
      if entry.mUpdateCounter = c then some (entry.mStartTime, entry.mEndTime)
      else getTimeBoundsLoop rest

/-- Modelled from the spec: `GetTimeBounds` (body not in the sources).  Up to
eight snapshot attempts; in this sequential model every attempt observes the
same state. -/
def SFBCARingBuffer.GetTimeBounds (st : SFBCARingBuffer) : Option (Int × Int) :=
  getTimeBoundsLoop (List.replicate 8 st.observeTimeBounds)

/-- Modelled from the spec: `ClampTimesToBounds` (body not in the sources).
Fails when the bounds cannot be obtained or the requested range lies entirely
outside the valid window; otherwise clamps both ends into the window. -/
def SFBCARingBuffer.ClampTimesToBounds (st : SFBCARingBuffer)
    (startRead endRead : Int) : Option (Int × Int) :=
  match st.GetTimeBounds with
  | none => none
  | some (startTime, endTime) =>
      if endTime < startRead ∨ endRead < startTime then none
      else
        let s := max startRead startTime
        some (s, max s (min endRead endTime))

/-- Modelled from the spec: `Write` (body not in the sources).  A zero frame
count succeeds trivially; a request beyond the capacity fails.  Otherwise the
valid window is adjusted (backwards writes and gaps beyond the capacity reset
the window to a fresh start at `startTime`; a window that would exceed one
capacity-width slides its start forward), a forward gap below the capacity is
filled with silence, the frames are copied per channel, and the new window is
published via `SetTimeBounds`. -/
def SFBCARingBuffer.Write (st : SFBCARingBuffer) (data : Nat → Nat → List Nat)
    (frameCount : Nat) (startTime : Int) : Option SFBCARingBuffer :=
  if frameCount = 0 then some st
  else if st.mCapacityFrames < frameCount then none
  else
    let cap : Int := (st.mCapacityFrames : Int)
    let endWrite : Int := startTime + (frameCount : Int)
    let st1 :=
      if startTime < st.EndTime then
        st.SetTimeBounds startTime startTime
      else if st.EndTime + cap < startTime then
        st.SetTimeBounds startTime startTime
      else if endWrite - st.StartTime ≤ cap then st
      else st.SetTimeBounds (endWrite - cap) (max (endWrite - cap) st.EndTime)
    let gap : Nat := (startTime - st1.EndTime).toNat
    let filled :=
      writeRange st1.mBuffers st1.mCapacityFrames st1.EndTime
        (fun _ _ => silenceFrame st1.mBytesPerFrame) gap
    let stored := writeRange filled st1.mCapacityFrames startTime data frameCount
    let st3 := { st1 with mBuffers := stored }
    some (st3.SetTimeBounds st3.StartTime endWrite)

/-- Modelled from the spec: `Read` (body not in the sources).  The result is
the content delivered into the destination buffers: channel `c`, request
frame `i` (absolute time `startTime + i`) receives the stored frame when it
lies inside the clamped range and silence otherwise.  The read fails when the
requested range has no overlap with the valid window. -/
def SFBCARingBuffer.Read (st : SFBCARingBuffer) (frameCount : Nat)
    (startTime : Int) : Option (Nat → Nat → List Nat) :=
  if frameCount = 0 then some fun _ _ => silenceFrame st.mBytesPerFrame
  else
    match st.ClampTimesToBounds startTime (startTime + (frameCount : Int)) with
    | none => none
    | some (s, e) =>
        some fun c i =>
          if s ≤ startTime + (i : Int) ∧ startTime + (i : Int) < e then
            st.mBuffers c (frameSlot (startTime + (i : Int)) st.mCapacityFrames)
          else silenceFrame st.mBytesPerFrame

/-- Fuel-bounded base-2 logarithm (agrees with `Nat.log 2 n` once the fuel
reaches `n`); structural recursion keeps it kernel-computable. -/
def log2fuel : Nat → Nat → Nat
  | 0, _ => 0
  | fuel + 1, n => if 2 ≤ n then log2fuel fuel (n / 2) + 1 else 0

/-- `true` exactly when `n` is a power of two (computable check used by
`Allocate`). -/
def isPowerOfTwo (n : Nat) : Bool := n == 2 ^ log2fuel n n

/-- The freshly allocated ring-buffer state: zeroed storage, zeroed
time-bounds queue, zero counter, mask set to `capacityFrames - 1`. -/
def initCARingBuffer (format : ASBD) (capacityFrames : Nat) : SFBCARingBuffer :=
  { mBytesPerFrame := format.mBytesPerFrame
    mChannelStreamCount := format.ChannelStreamCount
    mCapacityFrames := capacityFrames
    mCapacityFramesMask := capacityFrames - 1
    mBuffers := fun _ _ => silenceFrame format.mBytesPerFrame
    mTimeBoundsQueue := fun _ => ⟨0, 0, 0⟩
    mTimeBoundsQueueCounter := 0 }

/-- Modelled from the spec: `Allocate` (body not in the sources).  Validates
that the capacity is a power of two in `[2, 2^31]` and that the format is
usable (nonzero bytes per frame and channel-stream count); on success returns
the fresh state, otherwise fails with no state allocated. -/
def SFBCARingBuffer.Allocate (format : ASBD) (capacityFrames : Nat) :
    Option SFBCARingBuffer :=
  if 2 ≤ capacityFrames ∧ capacityFrames ≤ 2 ^ 31 ∧ isPowerOfTwo capacityFrames
      ∧ 0 < format.mBytesPerFrame ∧ 0 < format.ChannelStreamCount then
    some (initCARingBuffer format capacityFrames)
  else none

/-- Well-formedness of a ring-buffer state: positive capacity, the seqlock
slot of the current counter stamped with that counter, and an ordered valid
window no wider than the capacity. -/
structure SFBCARingBuffer.WF (st : SFBCARingBuffer) : Prop where
  cap_pos : 0 < st.mCapacityFrames
  seq_ok : (st.mTimeBoundsQueue (tbSlot st.mTimeBoundsQueueCounter)).mUpdateCounter
      = st.mTimeBoundsQueueCounter
  start_le_end : st.StartTime ≤ st.EndTime
  width_le : st.EndTime - st.StartTime ≤ (st.mCapacityFrames : Int)

/-- The states reachable from an allocation by a sequence of writes. -/
inductive SFBCARingBuffer.Reachable : SFBCARingBuffer → Prop
  | alloc : ∀ (format : ASBD) (capacityFrames : Nat) (st : SFBCARingBuffer),
      SFBCARingBuffer.Allocate format capacityFrames = some st → Reachable st
  | write : ∀ (st st2 : SFBCARingBuffer) (data : Nat → Nat → List Nat)
      (frameCount : Nat) (startTime : Int), Reachable st →
      SFBCARingBuffer.Write st data frameCount startTime = some st2 → Reachable st2

/-- The state of an allocated `SFBRingBuffer` (generic byte ring buffer).
Modelled from the spec: the cursors are free-running monotone counters,
masked only when dereferencing into the store. -/
structure SFBRingBuffer where
  mCapacityBytes : Nat
  writeCursor : Nat
  readCursor : Nat
  store : Nat → Nat

/-- `CapacityBytes()` accessor. -/
def SFBRingBuffer.CapacityBytes (rb : SFBRingBuffer) : Nat := rb.mCapacityBytes

/-- Modelled from the spec: `BytesAvailableToRead` is the distance between
the free-running write and read cursors. -/
def SFBRingBuffer.BytesAvailableToRead (rb : SFBRingBuffer) : Nat :=
  rb.writeCursor - rb.readCursor

/-- Modelled from the spec: `BytesAvailableToWrite` is the capacity minus the
bytes available to read. -/
def SFBRingBuffer.BytesAvailableToWrite (rb : SFBRingBuffer) : Nat :=
  rb.mCapacityBytes - rb.BytesAvailableToRead

/-- The next power of two at or above `n` (for `n ≥ 1`). -/
def nextPowerOfTwo (n : Nat) : Nat := 2 ^ Nat.clog 2 n

/-- Modelled from the spec: `SFBRingBuffer::Allocate` rounds the requested
byte count up to the next power of two and fails outside `[2, 2^31]`. -/
def SFBRingBuffer.Allocate (byteCount : Nat) : Option SFBRingBuffer :=
  if 2 ≤ byteCount ∧ byteCount ≤ 2 ^ 31 then
    some ⟨nextPowerOfTwo byteCount, 0, 0, fun _ => 0⟩
  else none

/-- Writes a byte list into the backing store starting at free-running
position `pos`, masking each position into the store. -/
def storeBytes (store : Nat → Nat) (mask : Nat) (pos : Nat) :
    List Nat → Nat → Nat
  | [], _ => store 0
  | b :: rest, i =>
      if i = Nat.land pos mask then b else storeBytes store mask (pos + 1) rest i

/-- Modelled from the spec: `SFBRingBuffer::Write` copies
`min (requested, available-to-write)` bytes and advances the write cursor by
the number of bytes actually moved. -/
def SFBRingBuffer.Write (rb : SFBRingBuffer) (bytes : List Nat) : SFBRingBuffer :=
  let n := min bytes.length rb.BytesAvailableToWrite
  { rb with
    store := storeBytes rb.store (rb.mCapacityBytes - 1) rb.writeCursor (bytes.take n)
    writeCursor := rb.writeCursor + n }

/-- Modelled from the spec: `SFBRingBuffer::Read` copies
`min (requested, available-to-read)` bytes and advances the read cursor by
the number of bytes actually moved.  Returns the bytes delivered and the new
state. -/
def SFBRingBuffer.Read (rb : SFBRingBuffer) (byteCount : Nat) :
    List Nat × SFBRingBuffer :=
  let n := min byteCount rb.BytesAvailableToRead
  ((List.range n).map fun i => rb.store (Nat.land (rb.readCursor + i) (rb.mCapacityBytes - 1)),
   { rb with readCursor := rb.readCursor + n })

/-- Modelled from the spec: `Reset` zeroes both cursors. -/
def SFBRingBuffer.Reset (rb : SFBRingBuffer) : SFBRingBuffer :=
  { rb with readCursor := 0, writeCursor := 0 }

/-- Modelled from the spec: `AdvanceReadPosition` commits a vector-based
read; the commit is bounded by the readable region the read vector exposed. -/
def SFBRingBuffer.AdvanceReadPosition (rb : SFBRingBuffer) (byteCount : Nat) :
    SFBRingBuffer :=
  { rb with readCursor := rb.readCursor + min byteCount rb.BytesAvailableToRead }

/-- Modelled from the spec: `AdvanceWritePosition` commits a vector-based
write; the commit is bounded by the writable region the write vector
exposed. -/
def SFBRingBuffer.AdvanceWritePosition (rb : SFBRingBuffer) (byteCount : Nat) :
    SFBRingBuffer :=
  { rb with writeCursor := rb.writeCursor + min byteCount rb.BytesAvailableToWrite }

/-- The states of the generic byte ring buffer reachable from an allocation
by reads, writes, resets and vector commits. -/
inductive SFBRingBuffer.Reachable : SFBRingBuffer → Prop
  | alloc : ∀ (byteCount : Nat) (rb : SFBRingBuffer),
      SFBRingBuffer.Allocate byteCount = some rb → Reachable rb
  | write : ∀ (rb : SFBRingBuffer) (bytes : List Nat),
      Reachable rb → Reachable (rb.Write bytes)
  | read : ∀ (rb : SFBRingBuffer) (byteCount : Nat),
      Reachable rb → Reachable (rb.Read byteCount).2
  | reset : ∀ (rb : SFBRingBuffer), Reachable rb → Reachable rb.Reset
  | advanceRead : ∀ (rb : SFBRingBuffer) (byteCount : Nat),
      Reachable rb → Reachable (rb.AdvanceReadPosition byteCount)
  | advanceWrite : ∀ (rb : SFBRingBuffer) (byteCount : Nat),
      Reachable rb → Reachable (rb.AdvanceWritePosition byteCount)

/-- One `AudioBuffer` of an `AudioBufferList`: channel count, byte size, and
the bytes of its data region. -/
structure AudioBuffer where
  mNumberChannels : Nat
  mDataByteSize : Nat
  mData : List Nat
deriving DecidableEq

/-- An `AudioBufferList`: the buffer count and the buffers. -/
structure AudioBufferList where
  mNumberBuffers : Nat
  mBuffers : List AudioBuffer
deriving DecidableEq

/-- `SFBAllocateAudioBufferList` from `SFBAudioBufferList.cpp`, success path
of the single `calloc`.  `bufferDataSize = frameCapacity * mBytesPerFrame` is
a `UInt32` product and therefore reduced modulo `2^32`; every buffer's data
region starts zero-filled. -/
def SFBAllocateAudioBufferList (format : ASBD) (frameCapacity : Nat) :
    AudioBufferList :=
  let bufferDataSize := frameCapacity * format.mBytesPerFrame % 2 ^ 32
  let bufferCount := format.ChannelStreamCount
  { mNumberBuffers := bufferCount
    mBuffers := (List.range bufferCount).map fun _ =>
      ⟨format.InterleavedChannelCount, bufferDataSize,
       List.replicate bufferDataSize 0⟩ }

namespace SFB

/-- `SFB::ByteStream` state: the wrapped buffer's bytes, the stored length
(`mBufferLength`), and the current read position. -/
structure ByteStream where
  mBuffer : List Nat
  mBufferLength : Nat
  mReadPosition : Nat
deriving DecidableEq

/-- The `ByteStream(buf, len)` constructor with a non-null buffer: read
position starts at `0`. -/
def ByteStream.ofBuffer (buf : List Nat) : ByteStream := ⟨buf, buf.length, 0⟩

/-- `Length()` accessor. -/
def ByteStream.Length (s : ByteStream) : Nat := s.mBufferLength

/-- `Position()` accessor. -/
def ByteStream.Position (s : ByteStream) : Nat := s.mReadPosition

/-- `Remaining()`: `mBufferLength - mReadPosition`. -/
def ByteStream.Remaining (s : ByteStream) : Nat :=
  s.mBufferLength - s.mReadPosition

/-- `Read(buf, count)`: copies `min count (mBufferLength - mReadPosition)`
bytes and advances the read position by that amount.  Returns the copied
bytes, the returned byte count, and the new state. -/
def ByteStream.Read (s : ByteStream) (count : Nat) :
    List Nat × Nat × ByteStream :=
  let bytesToCopy := min count (s.mBufferLength - s.mReadPosition)
  ((s.mBuffer.drop s.mReadPosition).take bytesToCopy, bytesToCopy,
   { s with mReadPosition := s.mReadPosition + bytesToCopy })

/-- `Skip(count)`: advances the read position by
`min count (mBufferLength - mReadPosition)` and returns the new position. -/
def ByteStream.Skip (s : ByteStream) (count : Nat) : Nat × ByteStream :=
  let p := s.mReadPosition + min count (s.mBufferLength - s.mReadPosition)
  (p, { s with mReadPosition := p })

/-- `Rewind(count)`: moves the read position back by
`min count mReadPosition` and returns the number of bytes rewound. -/
def ByteStream.Rewind (s : ByteStream) (count : Nat) : Nat × ByteStream :=
  let bytesToSkip := min count s.mReadPosition
  (bytesToSkip, { s with mReadPosition := s.mReadPosition - bytesToSkip })

/-- `SetPosition(pos)`: sets the read position to `min pos mBufferLength` and
returns it. -/
def ByteStream.SetPosition (s : ByteStream) (pos : Nat) : Nat × ByteStream :=
  let p := min pos s.mBufferLength
  (p, { s with mReadPosition := p })

end SFB

/-- A concrete non-interleaved stereo format (4 bytes per frame, 2 channel
streams) used by the witness instances. -/
def fmtW : ASBD := ⟨4, 2, true⟩

/-- A concrete interleaved format whose `frameCapacity * mBytesPerFrame`
product overflows `UInt32` at `frameCapacity = 65536`. -/
def fmtBig : ASBD := ⟨65536, 1, false⟩

/-- Concrete frame data for witness instances. -/
def dataW : Nat → Nat → List Nat := fun c i => [c, i, 7, 9]

/-- A second batch of concrete frame data for witness instances. -/
def dataW2 : Nat → Nat → List Nat := fun c i => [c + 1, i + 1, 3, 5]

/-- Witness state: a freshly allocated 8-frame buffer. -/
def stW0 : SFBCARingBuffer := initCARingBuffer fmtW 8

/-- Witness state: `stW0` after writing 3 frames at time 5. -/
def stW1 : SFBCARingBuffer := (stW0.Write dataW 3 5).getD stW0

/-- Witness state: a freshly allocated 256-frame buffer. -/
def stG0 : SFBCARingBuffer := initCARingBuffer fmtW 256

/-- Witness state: `stG0` after writing frames `[0, 100)`. -/
def stG1 : SFBCARingBuffer := (stG0.Write dataW 100 0).getD stG0

/-- Witness state: `stG1` after writing frames `[150, 200)`. -/
def stG2 : SFBCARingBuffer := (stG1.Write dataW2 50 150).getD stG0

/-- Witness state: a freshly allocated 64-frame buffer. -/
def stD0 : SFBCARingBuffer := initCARingBuffer fmtW 64

/-- Witness state: `stD0` after writing frames `[0, 10)`. -/
def stD1 : SFBCARingBuffer := (stD0.Write dataW 10 0).getD stD0

/-- Witness state: `stD1` after writing frames `[1000, 1010)`. -/
def stD2 : SFBCARingBuffer := (stD1.Write dataW2 10 1000).getD stD0

/-- Witness state: a freshly allocated byte ring buffer. -/
def rbW : SFBRingBuffer := (SFBRingBuffer.Allocate 4).getD ⟨0, 0, 0, fun _ => 0⟩

/-- Witness state: a concrete byte stream over five bytes, read position 2. -/
def bsW : SFB.ByteStream := ⟨[1, 2, 3, 4, 5], 5, 2⟩

/-- `writeRange` of zero frames leaves the storage unchanged. -/
@[simp]
theorem writeRange_zero (store : Nat → Nat → List Nat) (cap : Nat) (t : Int)
    (data : Nat → Nat → List Nat) : writeRange store cap t data 0 = store := rfl

/-- A frame time already inside `[0, cap)` is its own slot. -/
theorem frameSlot_eq_self (t : Int) (cap : Nat) (h0 : 0 ≤ t) (h1 : t < (cap : Int)) :
    frameSlot t cap = t.toNat := by
  unfold frameSlot
  rw [Int.emod_eq_of_lt h0 h1]

/-- Offsets that differ by less than the capacity occupy different slots. -/
theorem frameSlot_add_ne (t : Int) (cap i j : Nat) (hij : i < j) (hj : j - i < cap) :
    frameSlot (t + (i : Int)) cap ≠ frameSlot (t + (j : Int)) cap := by
  intro h
  have hne : ((cap : Int)) ≠ 0 := by
    have : 0 < cap := by omega
    exact_mod_cast this.ne'
  have n1 := Int.emod_nonneg (t + (i : Int)) hne
  have n2 := Int.emod_nonneg (t + (j : Int)) hne
  unfold frameSlot at h
  have e1 : (t + (i : Int)) % (cap : Int) = (t + (j : Int)) % (cap : Int) := by omega
  rw [Int.emod_eq_emod_iff_emod_sub_eq_zero] at e1
  have e2 : (t + (i : Int)) - (t + (j : Int)) = (i : Int) - (j : Int) := by ring
  rw [e2] at e1
  have hd : (cap : Int) ∣ ((j : Int) - (i : Int)) := by
    have hd1 := Int.dvd_of_emod_eq_zero e1
    have e3 : ((j : Int) - (i : Int)) = -((i : Int) - (j : Int)) := by ring
    rw [e3]
    exact Dvd.dvd.neg_right hd1
  have hpos : (0 : Int) < (j : Int) - (i : Int) := by
    have : (i : Int) < (j : Int) := by exact_mod_cast hij
    omega
  have := Int.le_of_dvd hpos hd
  have hjc : ((j : Int) - (i : Int)) < (cap : Int) := by
    have : ((j - i : Nat) : Int) < (cap : Int) := by exact_mod_cast hj
    omega
  omega

/-- Looking up a just-written frame returns the written data (the write of
at most `cap` consecutive frames touches pairwise-distinct slots). -/
theorem writeRange_hit (store : Nat → Nat → List Nat) (cap : Nat) (t : Int)
    (data : Nat → Nat → List Nat) (N : Nat) (hN : N ≤ cap) (i : Nat) (hi : i < N)
    (c : Nat) :
    writeRange store cap t data N c (frameSlot (t + (i : Int)) cap) = data c i := by
  induction N with
  | zero => omega
  | succ n ih =>
    unfold writeRange
    by_cases hin : i = n
    · subst hin
      rw [if_pos rfl]
    · have hi2 : i < n := by omega
      rw [if_neg (frameSlot_add_ne t cap i n hi2 (by omega))]
      exact ih (by omega) hi2

/-- Looking up a slot outside the written range leaves the prior storage
visible. -/
theorem writeRange_miss (store : Nat → Nat → List Nat) (cap : Nat) (t : Int)
    (data : Nat → Nat → List Nat) (N : Nat) (c slot : Nat)
    (h : ∀ i, i < N → frameSlot (t + (i : Int)) cap ≠ slot) :
    writeRange store cap t data N c slot = store c slot := by
  induction N with
  | zero => rfl
  | succ n ih =>
    unfold writeRange
    rw [if_neg (Ne.symm (h n (by omega)))]
    exact ih fun i hi => h i (by omega)

/-- `SetTimeBounds` leaves the channel storage unchanged. -/
@[simp]
theorem SFBCARingBuffer.setTimeBounds_mBuffers (st : SFBCARingBuffer) (s e : Int) :
    (st.SetTimeBounds s e).mBuffers = st.mBuffers := rfl

/-- `SetTimeBounds` leaves the capacity unchanged. -/
@[simp]
theorem SFBCARingBuffer.setTimeBounds_mCapacityFrames (st : SFBCARingBuffer) (s e : Int) :
    (st.SetTimeBounds s e).mCapacityFrames = st.mCapacityFrames := rfl

/-- `SetTimeBounds` leaves the bytes-per-frame unchanged. -/
@[simp]
theorem SFBCARingBuffer.setTimeBounds_mBytesPerFrame (st : SFBCARingBuffer) (s e : Int) :
    (st.SetTimeBounds s e).mBytesPerFrame = st.mBytesPerFrame := rfl

/-- `SetTimeBounds` leaves the channel count unchanged. -/
@[simp]
theorem SFBCARingBuffer.setTimeBounds_mChannelStreamCount (st : SFBCARingBuffer) (s e : Int) :
    (st.SetTimeBounds s e).mChannelStreamCount = st.mChannelStreamCount := rfl

/-- After `SetTimeBounds`, `StartTime()` reads the just-published start. -/
@[simp]
theorem SFBCARingBuffer.startTime_setTimeBounds (st : SFBCARingBuffer) (s e : Int) :
    (st.SetTimeBounds s e).StartTime = s := by
  simp [SFBCARingBuffer.SetTimeBounds, SFBCARingBuffer.StartTime]

/-- After `SetTimeBounds`, `EndTime()` reads the just-published end. -/
@[simp]
theorem SFBCARingBuffer.endTime_setTimeBounds (st : SFBCARingBuffer) (s e : Int) :
    (st.SetTimeBounds s e).EndTime = e := by
  simp [SFBCARingBuffer.SetTimeBounds, SFBCARingBuffer.EndTime]

/-- After `SetTimeBounds`, the slot of the current counter carries the
current counter as its generation stamp. -/
theorem SFBCARingBuffer.seqOk_setTimeBounds (st : SFBCARingBuffer) (s e : Int) :
    ((st.SetTimeBounds s e).mTimeBoundsQueue
        (tbSlot (st.SetTimeBounds s e).mTimeBoundsQueueCounter)).mUpdateCounter
      = (st.SetTimeBounds s e).mTimeBoundsQueueCounter := by
  simp [SFBCARingBuffer.SetTimeBounds]

/-- A state whose current slot is correctly stamped yields its bounds on the
first `GetTimeBounds` attempt. -/
theorem SFBCARingBuffer.getTimeBounds_of_seqOk (st : SFBCARingBuffer)
    (h : (st.mTimeBoundsQueue (tbSlot st.mTimeBoundsQueueCounter)).mUpdateCounter
        = st.mTimeBoundsQueueCounter) :
    st.GetTimeBounds = some (st.StartTime, st.EndTime) := by
  simp [SFBCARingBuffer.GetTimeBounds, SFBCARingBuffer.observeTimeBounds,
    List.replicate, getTimeBoundsLoop, h, SFBCARingBuffer.StartTime,
    SFBCARingBuffer.EndTime]

/-- `GetTimeBounds` immediately after `SetTimeBounds` returns the published
window. -/
theorem SFBCARingBuffer.getTimeBounds_setTimeBounds (st : SFBCARingBuffer) (s e : Int) :
    (st.SetTimeBounds s e).GetTimeBounds = some (s, e) := by
  rw [SFBCARingBuffer.getTimeBounds_of_seqOk (st.SetTimeBounds s e)
    (SFBCARingBuffer.seqOk_setTimeBounds st s e)]
  simp

/-- Replacing the channel storage does not move `StartTime()`. -/
@[simp]
theorem SFBCARingBuffer.startTime_updateBuffers (st : SFBCARingBuffer)
    (b : Nat → Nat → List Nat) :
    ({ st with mBuffers := b } : SFBCARingBuffer).StartTime = st.StartTime := rfl

/-- Replacing the channel storage does not move `EndTime()`. -/
@[simp]
theorem SFBCARingBuffer.endTime_updateBuffers (st : SFBCARingBuffer)
    (b : Nat → Nat → List Nat) :
    ({ st with mBuffers := b } : SFBCARingBuffer).EndTime = st.EndTime := rfl

/-- `Write` in the in-bounds forward case (no backwards jump, gap at most one
capacity, window still fits): silence-fill the gap, store the frames, publish
`[StartTime, T + N)`. -/
theorem SFBCARingBuffer.write_eq_forward (st : SFBCARingBuffer)
    (data : Nat → Nat → List Nat) (N : Nat) (T : Int)
    (h0 : N ≠ 0) (h1 : ¬ st.mCapacityFrames < N)
    (h2 : ¬ T < st.EndTime)
    (h3 : ¬ st.EndTime + (st.mCapacityFrames : Int) < T)
    (h4 : T + (N : Int) - st.StartTime ≤ (st.mCapacityFrames : Int)) :
    st.Write data N T = some
      (SFBCARingBuffer.SetTimeBounds
        { st with mBuffers := (writeRange
            (writeRange st.mBuffers st.mCapacityFrames st.EndTime
              (fun _ _ => silenceFrame st.mBytesPerFrame) (T - st.EndTime).toNat)
            st.mCapacityFrames T data N) }
        st.StartTime (T + (N : Int))) := by
  simp only [SFBCARingBuffer.Write, if_neg h0, if_neg h1, if_neg h2, if_neg h3,
    if_pos h4, SFBCARingBuffer.startTime_updateBuffers]

/-- `Write` when the start time jumps backwards before the current end: the
window is restarted at the incoming start time ("throw everything out"), the
frames are stored, and `[T, T + N)` is published. -/
theorem SFBCARingBuffer.write_eq_back (st : SFBCARingBuffer)
    (data : Nat → Nat → List Nat) (N : Nat) (T : Int)
    (h0 : N ≠ 0) (h1 : ¬ st.mCapacityFrames < N)
    (h2 : T < st.EndTime) :
    st.Write data N T = some
      (SFBCARingBuffer.SetTimeBounds
        { st.SetTimeBounds T T with
          mBuffers := (writeRange st.mBuffers st.mCapacityFrames T data N) }
        T (T + (N : Int))) := by
  simp only [SFBCARingBuffer.Write, if_neg h0, if_neg h1, if_pos h2,
    SFBCARingBuffer.endTime_setTimeBounds, sub_self, Int.toNat_zero,
    writeRange_zero, SFBCARingBuffer.setTimeBounds_mBuffers,
    SFBCARingBuffer.setTimeBounds_mCapacityFrames,
    SFBCARingBuffer.setTimeBounds_mBytesPerFrame,
    SFBCARingBuffer.startTime_setTimeBounds,
    SFBCARingBuffer.startTime_updateBuffers]
  simp [SFBCARingBuffer.StartTime, SFBCARingBuffer.SetTimeBounds]

/-- `Write` when the forward gap exceeds the capacity: the incoming block is
treated as a fresh start — the window resets to the incoming start time, the
frames are stored, and `[T, T + N)` is published. -/
theorem SFBCARingBuffer.write_eq_biggap (st : SFBCARingBuffer)
    (data : Nat → Nat → List Nat) (N : Nat) (T : Int)
    (h0 : N ≠ 0) (h1 : ¬ st.mCapacityFrames < N)
    (h2 : ¬ T < st.EndTime)
    (h3 : st.EndTime + (st.mCapacityFrames : Int) < T) :
    st.Write data N T = some
      (SFBCARingBuffer.SetTimeBounds
        { st.SetTimeBounds T T with
          mBuffers := (writeRange st.mBuffers st.mCapacityFrames T data N) }
        T (T + (N : Int))) := by
  simp only [SFBCARingBuffer.Write, if_neg h0, if_neg h1, if_neg h2, if_pos h3,
    SFBCARingBuffer.endTime_setTimeBounds, sub_self, Int.toNat_zero,
    writeRange_zero, SFBCARingBuffer.setTimeBounds_mBuffers,
    SFBCARingBuffer.setTimeBounds_mCapacityFrames,
    SFBCARingBuffer.setTimeBounds_mBytesPerFrame,
    SFBCARingBuffer.startTime_setTimeBounds,
    SFBCARingBuffer.startTime_updateBuffers]
  simp [SFBCARingBuffer.StartTime, SFBCARingBuffer.SetTimeBounds]

/-- `Write` when the window would exceed one capacity-width: the start slides
forward to `T + N - capacity`, the remaining gap (if any) is silence-filled,
the frames are stored, and `[T + N - capacity, T + N)` is published. -/
theorem SFBCARingBuffer.write_eq_slide (st : SFBCARingBuffer)
    (data : Nat → Nat → List Nat) (N : Nat) (T : Int)
    (h0 : N ≠ 0) (h1 : ¬ st.mCapacityFrames < N)
    (h2 : ¬ T < st.EndTime)
    (h3 : ¬ st.EndTime + (st.mCapacityFrames : Int) < T)
    (h4 : ¬ T + (N : Int) - st.StartTime ≤ (st.mCapacityFrames : Int)) :
    st.Write data N T = some
      (SFBCARingBuffer.SetTimeBounds
        { st.SetTimeBounds (T + (N : Int) - (st.mCapacityFrames : Int))
            (max (T + (N : Int) - (st.mCapacityFrames : Int)) st.EndTime) with
          mBuffers := (writeRange
            (writeRange st.mBuffers st.mCapacityFrames
              (max (T + (N : Int) - (st.mCapacityFrames : Int)) st.EndTime)
              (fun _ _ => silenceFrame st.mBytesPerFrame)
              ((T - max (T + (N : Int) - (st.mCapacityFrames : Int)) st.EndTime).toNat))
            st.mCapacityFrames T data N) }
        (T + (N : Int) - (st.mCapacityFrames : Int)) (T + (N : Int))) := by
  simp only [SFBCARingBuffer.Write, if_neg h0, if_neg h1, if_neg h2, if_neg h3,
    if_neg h4, SFBCARingBuffer.endTime_setTimeBounds,
    SFBCARingBuffer.setTimeBounds_mBuffers,
    SFBCARingBuffer.setTimeBounds_mCapacityFrames,
    SFBCARingBuffer.setTimeBounds_mBytesPerFrame,
    SFBCARingBuffer.startTime_setTimeBounds,
    SFBCARingBuffer.startTime_updateBuffers]
  simp [SFBCARingBuffer.StartTime, SFBCARingBuffer.SetTimeBounds]

/-- Every successful nonempty `Write` publishes the window `[S3, T + N)` over
storage ending in the `N` stored frames, with `S3 ≤ T` and a window at most
one capacity wide. -/
theorem SFBCARingBuffer.write_char (st : SFBCARingBuffer)
    (data : Nat → Nat → List Nat) (N : Nat) (T : Int)
    (h0 : N ≠ 0) (h1 : ¬ st.mCapacityFrames < N)
    (hse : st.StartTime ≤ st.EndTime) :
    ∃ (B : SFBCARingBuffer) (S3 : Int),
      st.Write data N T = some (SFBCARingBuffer.SetTimeBounds B S3 (T + (N : Int))) ∧
      B.mCapacityFrames = st.mCapacityFrames ∧
      B.mBytesPerFrame = st.mBytesPerFrame ∧
      B.mChannelStreamCount = st.mChannelStreamCount ∧
      (∃ W, B.mBuffers = writeRange W st.mCapacityFrames T data N) ∧
      S3 ≤ T ∧ T + (N : Int) - S3 ≤ (st.mCapacityFrames : Int) := by
  have hNcap : (N : Int) ≤ (st.mCapacityFrames : Int) := by exact_mod_cast Nat.le_of_not_lt h1
  have hNpos : (0 : Int) < (N : Int) := by
    have : 0 < N := Nat.pos_of_ne_zero h0
    exact_mod_cast this
  by_cases h2 : T < st.EndTime
  · refine ⟨_, _, st.write_eq_back data N T h0 h1 h2, rfl, rfl, rfl, ⟨_, rfl⟩, le_refl T, ?_⟩
    omega
  · by_cases h3 : st.EndTime + (st.mCapacityFrames : Int) < T
    · refine ⟨_, _, st.write_eq_biggap data N T h0 h1 h2 h3, rfl, rfl, rfl, ⟨_, rfl⟩,
        le_refl T, ?_⟩
      omega
    · by_cases h4 : T + (N : Int) - st.StartTime ≤ (st.mCapacityFrames : Int)
      · refine ⟨_, _, st.write_eq_forward data N T h0 h1 h2 h3 h4, rfl, rfl, rfl,
          ⟨_, rfl⟩, ?_, ?_⟩
        · omega
        · omega
      · refine ⟨_, _, st.write_eq_slide data N T h0 h1 h2 h3 h4, rfl, rfl, rfl,
          ⟨_, rfl⟩, ?_, ?_⟩
        · omega
        · omega

/-- `Read` in the overlapping case: the delivered content is the stored frame
inside the clamped range and silence outside it. -/
theorem SFBCARingBuffer.read_eq (st : SFBCARingBuffer) (N : Nat) (T S E : Int)
    (h0 : N ≠ 0) (hB : st.GetTimeBounds = some (S, E))
    (h1 : ¬ E < T) (h2 : ¬ T + (N : Int) < S) :
    st.Read N T = some fun (c i : Nat) =>
      if max T S ≤ T + (i : Int) ∧ T + (i : Int) < max (max T S) (min (T + (N : Int)) E) then
        st.mBuffers c (frameSlot (T + (i : Int)) st.mCapacityFrames)
      else silenceFrame st.mBytesPerFrame := by
  have hor : ¬ (E < T ∨ T + (N : Int) < S) := by
    intro h
    rcases h with h | h
    · exact h1 h
    · exact h2 h
  simp only [SFBCARingBuffer.Read, SFBCARingBuffer.ClampTimesToBounds, hB, if_neg h0,
    if_neg hor]

/-- `Read` fails when the requested range lies entirely outside the valid
window. -/
theorem SFBCARingBuffer.read_none (st : SFBCARingBuffer) (N : Nat) (T S E : Int)
    (h0 : N ≠ 0) (hB : st.GetTimeBounds = some (S, E))
    (h : E < T ∨ T + (N : Int) < S) :
    st.Read N T = none := by
  simp only [SFBCARingBuffer.Read, SFBCARingBuffer.ClampTimesToBounds, hB, if_neg h0,
    if_pos h]

/-- Inversion of a successful `Allocate`: the state is the fresh one and all
validation conditions held. -/
theorem SFBCARingBuffer.allocate_inv (format : ASBD) (capacityFrames : Nat)
    (st : SFBCARingBuffer)
    (h : SFBCARingBuffer.Allocate format capacityFrames = some st) :
    st = initCARingBuffer format capacityFrames ∧ 2 ≤ capacityFrames
      ∧ capacityFrames ≤ 2 ^ 31 ∧ isPowerOfTwo capacityFrames = true
      ∧ 0 < format.mBytesPerFrame ∧ 0 < format.ChannelStreamCount := by
  unfold SFBCARingBuffer.Allocate at h
  split_ifs at h with hc
  cases h
  exact ⟨rfl, hc.1, hc.2.1, hc.2.2.1, hc.2.2.2.1, hc.2.2.2.2⟩

/-- The fresh state's start time is zero. -/
@[simp]
theorem startTime_initCARingBuffer (format : ASBD) (capacityFrames : Nat) :
    (initCARingBuffer format capacityFrames).StartTime = 0 := rfl

/-- The fresh state's end time is zero. -/
@[simp]
theorem endTime_initCARingBuffer (format : ASBD) (capacityFrames : Nat) :
    (initCARingBuffer format capacityFrames).EndTime = 0 := rfl

/-- The fresh state records the requested capacity. -/
@[simp]
theorem capacity_initCARingBuffer (format : ASBD) (capacityFrames : Nat) :
    (initCARingBuffer format capacityFrames).mCapacityFrames = capacityFrames := rfl

/-- The fresh state records the format's bytes per frame. -/
@[simp]
theorem bytesPerFrame_initCARingBuffer (format : ASBD) (capacityFrames : Nat) :
    (initCARingBuffer format capacityFrames).mBytesPerFrame = format.mBytesPerFrame := rfl

/-- The fresh state is well formed once the capacity is positive. -/
theorem wf_initCARingBuffer (format : ASBD) (capacityFrames : Nat)
    (h : 0 < capacityFrames) : (initCARingBuffer format capacityFrames).WF := by
  refine ⟨h, rfl, ?_, ?_⟩
  · simp
  · simp

/-- A successful `Write` from a well-formed state yields a well-formed
state. -/
theorem SFBCARingBuffer.wf_write (st st2 : SFBCARingBuffer)
    (data : Nat → Nat → List Nat) (N : Nat) (T : Int)
    (hwf : st.WF) (hw : st.Write data N T = some st2) : st2.WF := by
  by_cases h0 : N = 0
  · subst h0
    simp [SFBCARingBuffer.Write] at hw
    exact hw ▸ hwf
  · have h1 : ¬ st.mCapacityFrames < N := by
      by_contra hlt
      simp [SFBCARingBuffer.Write, h0, hlt] at hw
    obtain ⟨B, S3, hww, hcap, _, _, _, hS3, hwidth⟩ :=
      st.write_char data N T h0 h1 hwf.start_le_end
    rw [hww] at hw
    cases hw
    have hNpos : (0 : Int) ≤ (N : Int) := by positivity
    refine ⟨?_, SFBCARingBuffer.seqOk_setTimeBounds B S3 (T + (N : Int)), ?_, ?_⟩
    · rw [SFBCARingBuffer.setTimeBounds_mCapacityFrames, hcap]
      exact hwf.cap_pos
    · rw [SFBCARingBuffer.startTime_setTimeBounds, SFBCARingBuffer.endTime_setTimeBounds]
      omega
    · rw [SFBCARingBuffer.startTime_setTimeBounds, SFBCARingBuffer.endTime_setTimeBounds,
        SFBCARingBuffer.setTimeBounds_mCapacityFrames, hcap]
      omega

/-- Every state reachable from an allocation by writes is well formed. -/
theorem SFBCARingBuffer.reachable_wf (st : SFBCARingBuffer) (h : st.Reachable) :
    st.WF := by
  induction h with
  | alloc format capacityFrames st h =>
      obtain ⟨hinit, hcap, _⟩ := SFBCARingBuffer.allocate_inv format capacityFrames st h
      subst hinit
      exact wf_initCARingBuffer format capacityFrames (by omega)
  | write st st2 data N T hr hw ih =>
      exact SFBCARingBuffer.wf_write st st2 data N T ih hw

/-- With enough fuel, `log2fuel` computes `Nat.log 2`. -/
theorem log2fuel_eq_log (fuel : Nat) : ∀ n, n ≤ fuel → log2fuel fuel n = Nat.log 2 n := by
  induction fuel with
  | zero =>
      intro n hn
      have : n = 0 := by omega
      subst this
      simp [log2fuel, Nat.log_zero_right]
  | succ f ih =>
      intro n hn
      unfold log2fuel
      by_cases h2 : 2 ≤ n
      · rw [if_pos h2, ih (n / 2) (by omega)]
        rw [Nat.log_div_base 2 n] at *
        have hpos : 0 < Nat.log 2 n := Nat.log_pos (by omega) h2
        omega
      · rw [if_neg h2]
        have : n < 2 := by omega
        exact (Nat.log_eq_zero_iff.mpr (Or.inl this)).symm

/-- Powers of two pass the `isPowerOfTwo` check. -/
theorem isPowerOfTwo_pow (k : Nat) : isPowerOfTwo (2 ^ k) = true := by
  unfold isPowerOfTwo
  rw [log2fuel_eq_log (2 ^ k) (2 ^ k) (le_refl (2 ^ k)), Nat.log_pow (by omega) k]
  exact beq_self_eq_true (2 ^ k)

/-- Values passing the `isPowerOfTwo` check are powers of two. -/
theorem isPowerOfTwo_exists (n : Nat) (h : isPowerOfTwo n = true) : ∃ k, n = 2 ^ k := by
  unfold isPowerOfTwo at h
  exact ⟨log2fuel n n, eq_of_beq h⟩

/-- Bitwise AND against `2^k - 1` is reduction modulo `2^k`. -/
theorem nat_land_two_pow_sub_one (x k : Nat) : Nat.land x (2 ^ k - 1) = x % 2 ^ k := by
  apply Nat.eq_of_testBit_eq
  intro i
  rw [show Nat.land x (2 ^ k - 1) = x &&& (2 ^ k - 1) from rfl]
  rw [Nat.testBit_land, Nat.testBit_mod_two_pow, Nat.testBit_two_pow_sub_one]
  by_cases h : i < k
  · simp [h]
  · simp [h]

/-- C4: for every allocated buffer (power-of-two capacity `2^k`, mask equal
to `capacityFrames - 1`) and every `int64` frame number `n`, the byte offset
`(n & mCapacityFramesMask) * mBytesPerFrame` computed by `FrameByteOffset`
equals `(n mod capacityFrames) * bytesPerFrame` with the true nonnegative
remainder — i.e. the slot-granular addressing `frameSlot`. -/
theorem c4_frame_byte_offset (st : SFBCARingBuffer) (n : Int) (k : Nat)
    (hk : k ≤ 64) (hcap : st.mCapacityFrames = 2 ^ k)
    (hmask : st.mCapacityFramesMask = st.mCapacityFrames - 1) :
    st.FrameByteOffset n = frameSlot n st.mCapacityFrames * st.mBytesPerFrame := by
  unfold SFBCARingBuffer.FrameByteOffset frameSlot int64Bits
  rw [hmask, hcap, nat_land_two_pow_sub_one]
  congr 1
  have hcast : ((2 ^ k : Nat) : Int) = (2 : Int) ^ k := by push_cast; ring
  rw [hcast]
  have hne64 : ((2 : Int) ^ 64) ≠ 0 := by positivity
  have hnek : ((2 : Int) ^ k) ≠ 0 := by positivity
  have ha : 0 ≤ n % (2 : Int) ^ 64 := Int.emod_nonneg n hne64
  have hb : 0 ≤ n % (2 : Int) ^ k := Int.emod_nonneg n hnek
  have hd : ((2 : Int) ^ k) ∣ (2 : Int) ^ 64 := pow_dvd_pow 2 hk
  have key : (n % (2 : Int) ^ 64) % (2 : Int) ^ k = n % (2 : Int) ^ k :=
    Int.emod_emod_of_dvd n hd
  have e3 : (((n % (2 : Int) ^ 64).toNat % 2 ^ k : Nat) : Int)
      = (((n % (2 : Int) ^ k).toNat : Nat) : Int) := by
    rw [Int.natCast_mod, Int.toNat_of_nonneg ha, Int.toNat_of_nonneg hb, hcast]
    exact key
  exact_mod_cast e3

/-- C4 witness: the allocated 8-frame buffer (`k = 3`) at the negative frame
number `-5`. -/
theorem c4_witness : stW0.mCapacityFrames = 2 ^ 3
    ∧ stW0.mCapacityFramesMask = stW0.mCapacityFrames - 1
    ∧ stW0.FrameByteOffset (-5) = frameSlot (-5) stW0.mCapacityFrames * stW0.mBytesPerFrame
    ∧ stW0.FrameByteOffset (-5) = 12 :=
  ⟨rfl, rfl, c4_frame_byte_offset stW0 (-5) 3 (by omega) rfl rfl, by decide⟩

/-- C7: for a usable format, `Allocate` succeeds on every power-of-two
capacity in `[2, 2^31]` and afterwards `CapacityFrames()` equals the request;
on every non-power-of-two or out-of-range capacity it fails, leaving no
allocated state. -/
theorem c7_allocate_validation (format : ASBD) (capacityFrames : Nat)
    (hbpf : 0 < format.mBytesPerFrame) (hch : 0 < format.ChannelStreamCount) :
    (∀ k, capacityFrames = 2 ^ k → 2 ≤ capacityFrames → capacityFrames ≤ 2 ^ 31 →
      ∃ st, SFBCARingBuffer.Allocate format capacityFrames = some st ∧
        st.CapacityFrames = capacityFrames) ∧
    (((¬ ∃ k, capacityFrames = 2 ^ k) ∨ capacityFrames < 2 ∨ 2 ^ 31 < capacityFrames) →
      SFBCARingBuffer.Allocate format capacityFrames = none) := by
  constructor
  · intro k hk h2 h31
    subst hk
    refine ⟨initCARingBuffer format (2 ^ k), ?_, rfl⟩
    unfold SFBCARingBuffer.Allocate
    rw [if_pos ⟨h2, h31, isPowerOfTwo_pow k, hbpf, hch⟩]
  · intro h
    unfold SFBCARingBuffer.Allocate
    rw [if_neg]
    intro hcond
    obtain ⟨hc1, hc2, hc3, _, _⟩ := hcond
    rcases h with h | h | h
    · exact h (isPowerOfTwo_exists capacityFrames hc3)
    · omega
    · omega

/-- C7 witness: the stereo format with capacity 8 (success, capacity
reported back) and capacity 12 (failure: not a power of two). -/
theorem c7_witness : (0 < fmtW.mBytesPerFrame ∧ 0 < fmtW.ChannelStreamCount) ∧
    (∃ st, SFBCARingBuffer.Allocate fmtW 8 = some st ∧ st.CapacityFrames = 8) ∧
    SFBCARingBuffer.Allocate fmtW 12 = none :=
  ⟨⟨by decide, by decide⟩,
   (c7_allocate_validation fmtW 8 (by decide) (by decide)).1 3 (by norm_num)
     (by norm_num) (by norm_num),
   (c7_allocate_validation fmtW 12 (by decide) (by decide)).2 (Or.inl (by
      rintro ⟨k, hk⟩
      have hklt : k < 4 := by
        by_contra hge
        push_neg at hge
        have : (2 : Nat) ^ 4 ≤ 2 ^ k := Nat.pow_le_pow_right (by omega) hge
        omega
      interval_cases k <;> norm_num at hk))⟩

/-- C1: on any well-formed (allocated) buffer, writing `N ≤ capacityFrames`
frames at any start time `T` succeeds, a subsequent read of `N` frames at `T`
succeeds, and the read delivers exactly the written frames on every channel
stream. -/
theorem c1_round_trip (st : SFBCARingBuffer) (data : Nat → Nat → List Nat)
    (N : Nat) (T : Int) (hwf : st.WF) (hN : N ≤ st.CapacityFrames) :
    ∃ st2 res, st.Write data N T = some st2 ∧ st2.Read N T = some res ∧
      ∀ c i, c < st.mChannelStreamCount → i < N → res c i = data c i := by
  by_cases h0 : N = 0
  · subst h0
    refine ⟨st, fun _ _ => silenceFrame st.mBytesPerFrame, ?_, ?_, ?_⟩
    · simp [SFBCARingBuffer.Write]
    · simp [SFBCARingBuffer.Read]
    · intro c i _ hi
      omega
  · have h1 : ¬ st.mCapacityFrames < N := by
      unfold SFBCARingBuffer.CapacityFrames at hN
      omega
    obtain ⟨B, S3, hww, hcap, hbpf, hch, ⟨W, hWB⟩, hS3, hwidth⟩ :=
      st.write_char data N T h0 h1 hwf.start_le_end
    have hNpos : (0 : Int) < (N : Int) := by
      have : 0 < N := Nat.pos_of_ne_zero h0
      exact_mod_cast this
    have hgtb := SFBCARingBuffer.getTimeBounds_setTimeBounds B S3 (T + (N : Int))
    have hread := SFBCARingBuffer.read_eq
      (SFBCARingBuffer.SetTimeBounds B S3 (T + (N : Int))) N T S3 (T + (N : Int))
      h0 hgtb (by omega) (by omega)
    refine ⟨_, _, hww, hread, ?_⟩
    intro c i hc hi
    have hiN : (i : Int) < (N : Int) := by exact_mod_cast hi
    have hi0 : (0 : Int) ≤ (i : Int) := by positivity
    have cond : max T S3 ≤ T + (i : Int) ∧
        T + (i : Int) < max (max T S3) (min (T + (N : Int)) (T + (N : Int))) := by
      constructor <;> omega
    simp only [if_pos cond, SFBCARingBuffer.setTimeBounds_mBuffers,
      SFBCARingBuffer.setTimeBounds_mCapacityFrames, hWB, hcap]
    exact writeRange_hit W st.mCapacityFrames T data N (Nat.le_of_not_lt h1) i hi c

/-- C1 witness: writing 3 frames at time 5 into the fresh 8-frame buffer and
reading them back. -/
theorem c1_witness : stW0.WF ∧ 3 ≤ stW0.CapacityFrames ∧
    (∃ st2 res, stW0.Write dataW 3 5 = some st2 ∧ st2.Read 3 5 = some res ∧
      ∀ c i, c < stW0.mChannelStreamCount → i < 3 → res c i = dataW c i) :=
  ⟨wf_initCARingBuffer fmtW 8 (by norm_num), by decide,
   c1_round_trip stW0 dataW 3 5 (wf_initCARingBuffer fmtW 8 (by norm_num)) (by decide)⟩

/-- C6: after every successful `Write` from a reachable state,
`GetTimeBounds` succeeds and the window it reports is at most one capacity
wide. -/
theorem c6_bounded_window (st st2 : SFBCARingBuffer) (data : Nat → Nat → List Nat)
    (N : Nat) (T : Int) (hr : st.Reachable)
    (hw : st.Write data N T = some st2) :
    ∃ S E, st2.GetTimeBounds = some (S, E) ∧ E - S ≤ (st2.CapacityFrames : Int) := by
  have hwf := st.reachable_wf hr
  have hwf2 := SFBCARingBuffer.wf_write st st2 data N T hwf hw
  exact ⟨st2.StartTime, st2.EndTime, st2.getTimeBounds_of_seqOk hwf2.seq_ok,
    hwf2.width_le⟩

/-- C6 witness: the fresh 8-frame buffer after writing 3 frames at time 5. -/
theorem c6_witness : stW0.Reachable ∧ stW0.Write dataW 3 5 = some stW1 ∧
    (∃ S E, stW1.GetTimeBounds = some (S, E) ∧ E - S ≤ (stW1.CapacityFrames : Int)) :=
  ⟨SFBCARingBuffer.Reachable.alloc fmtW 8 stW0 rfl, rfl,
   c6_bounded_window stW0 stW1 dataW 3 5
     (SFBCARingBuffer.Reachable.alloc fmtW 8 stW0 rfl) rfl⟩

/-- C5: in every state reachable by writes, the queue slot selected by the
current counter carries that counter as its generation stamp; and the
`GetTimeBounds` retry loop only ever returns an entry read from an
observation whose stamp matches the counter it was read under — a mismatched
observation is retried, never returned. -/
theorem c5_seqlock :
    (∀ st : SFBCARingBuffer, st.Reachable →
      (st.mTimeBoundsQueue (tbSlot st.mTimeBoundsQueueCounter)).mUpdateCounter
        = st.mTimeBoundsQueueCounter) ∧
    (∀ (obs : List (Nat × TimeBoundsEntry)) (s e : Int),
      getTimeBoundsLoop obs = some (s, e) →
      ∃ c entry, (c, entry) ∈ obs ∧ entry.mUpdateCounter = c ∧
        entry.mStartTime = s ∧ entry.mEndTime = e) := by
  constructor
  · intro st hr
    exact (st.reachable_wf hr).seq_ok
  · intro obs
    induction obs with
    | nil =>
        intro s e h
        simp [getTimeBoundsLoop] at h
    | cons hd tl ih =>
        intro s e h
        obtain ⟨c, entry⟩ := hd
        unfold getTimeBoundsLoop at h
        by_cases hc : entry.mUpdateCounter = c
        · rw [if_pos hc] at h
          cases h
          exact ⟨c, entry, List.mem_cons_self (c, entry) tl, hc, rfl, rfl⟩
        · rw [if_neg hc] at h
          obtain ⟨c2, e2, hmem, hx1, hx2, hx3⟩ := ih s e h
          exact ⟨c2, e2, List.mem_cons_of_mem (c, entry) hmem, hx1, hx2, hx3⟩

/-- C5 witness: the fresh 8-frame buffer for the slot invariant, and a
one-observation loop whose returned entry matches its counter. -/
theorem c5_witness : stW0.Reachable ∧
    ((stW0.mTimeBoundsQueue (tbSlot stW0.mTimeBoundsQueueCounter)).mUpdateCounter
      = stW0.mTimeBoundsQueueCounter) ∧
    getTimeBoundsLoop [(5, ⟨1, 2, 5⟩)] = some (1, 2) ∧
    (∃ c entry, (c, entry) ∈ [((5 : Nat), (⟨1, 2, 5⟩ : TimeBoundsEntry))] ∧
      entry.mUpdateCounter = c ∧ entry.mStartTime = 1 ∧ entry.mEndTime = 2) :=
  ⟨SFBCARingBuffer.Reachable.alloc fmtW 8 stW0 rfl,
   c5_seqlock.1 stW0 (SFBCARingBuffer.Reachable.alloc fmtW 8 stW0 rfl),
   rfl,
   c5_seqlock.2 [(5, ⟨1, 2, 5⟩)] 1 2 rfl⟩

/-- A frame time that is a natural number below the capacity is its own
slot. -/
theorem frameSlot_cast (a cap : Nat) (h : a < cap) :
    frameSlot ((a : Nat) : Int) cap = a := by
  unfold frameSlot
  rw [Int.emod_eq_of_lt (by positivity) (by exact_mod_cast h)]
  simp

/-- `StartTime()` on an explicit state literal. -/
@[simp]
theorem SFBCARingBuffer.startTime_mk (a b c d : Nat) (e : Nat → Nat → List Nat)
    (f : Nat → TimeBoundsEntry) (g : Nat) :
    (SFBCARingBuffer.mk a b c d e f g).StartTime = (f (tbSlot g)).mStartTime := rfl

/-- `EndTime()` on an explicit state literal. -/
@[simp]
theorem SFBCARingBuffer.endTime_mk (a b c d : Nat) (e : Nat → Nat → List Nat)
    (f : Nat → TimeBoundsEntry) (g : Nat) :
    (SFBCARingBuffer.mk a b c d e f g).EndTime = (f (tbSlot g)).mEndTime := rfl

/-- The fresh state's time-bounds queue is zeroed. -/
@[simp]
theorem queue_initCARingBuffer (format : ASBD) (capacityFrames : Nat) :
    (initCARingBuffer format capacityFrames).mTimeBoundsQueue = fun _ => ⟨0, 0, 0⟩ := rfl

/-- The fresh state's time-bounds counter is zero. -/
@[simp]
theorem counter_initCARingBuffer (format : ASBD) (capacityFrames : Nat) :
    (initCARingBuffer format capacityFrames).mTimeBoundsQueueCounter = 0 := rfl

/-- C3: with capacity 64, writing `[0, 10)` and then `[1000, 1010)` (a gap
far beyond the capacity) leaves the valid window exactly `[1000, 1010)`, and
a subsequent read of `[0, 10)` fails — it has no overlap with the valid
window. -/
theorem c3_discontinuity (format : ASBD) (st0 st1 st2 : SFBCARingBuffer)
    (d1 d2 : Nat → Nat → List Nat)
    (hA : SFBCARingBuffer.Allocate format 64 = some st0)
    (h1 : st0.Write d1 10 0 = some st1)
    (h2 : st1.Write d2 10 1000 = some st2) :
    st2.GetTimeBounds = some (1000, 1010) ∧ st2.Read 10 0 = none := by
  obtain ⟨hinit, -, -, -, -, -⟩ := SFBCARingBuffer.allocate_inv format 64 st0 hA
  subst hinit
  have e1 : (initCARingBuffer format 64).Write d1 10 0
      = some (SFBCARingBuffer.SetTimeBounds
          { initCARingBuffer format 64 with
            mBuffers := (writeRange (initCARingBuffer format 64).mBuffers 64 0 d1 10) }
          0 10) := by
    rw [SFBCARingBuffer.write_eq_forward (initCARingBuffer format 64) d1 10 0
      (by norm_num) (by norm_num) (by norm_num) (by norm_num) (by norm_num)]
    norm_num
  rw [e1] at h1
  cases h1
  have e2 : (SFBCARingBuffer.SetTimeBounds
        { initCARingBuffer format 64 with
          mBuffers := (writeRange (initCARingBuffer format 64).mBuffers 64 0 d1 10) }
        0 10).Write d2 10 1000
      = some (SFBCARingBuffer.SetTimeBounds
          { SFBCARingBuffer.SetTimeBounds (SFBCARingBuffer.SetTimeBounds
              { initCARingBuffer format 64 with
                mBuffers := (writeRange (initCARingBuffer format 64).mBuffers 64 0 d1 10) }
              0 10) 1000 1000 with
            mBuffers := (writeRange
              (writeRange (initCARingBuffer format 64).mBuffers 64 0 d1 10)
              64 1000 d2 10) }
          1000 1010) := by
    rw [SFBCARingBuffer.write_eq_biggap (SFBCARingBuffer.SetTimeBounds
        { initCARingBuffer format 64 with
          mBuffers := (writeRange (initCARingBuffer format 64).mBuffers 64 0 d1 10) }
        0 10) d2 10 1000
      (by norm_num) (by norm_num) (by norm_num) (by norm_num)]
    norm_num
  rw [e2] at h2
  cases h2
  constructor
  · rw [SFBCARingBuffer.getTimeBounds_setTimeBounds]
  · exact SFBCARingBuffer.read_none _ 10 0 1000 1010 (by norm_num)
      (SFBCARingBuffer.getTimeBounds_setTimeBounds _ 1000 1010) (Or.inr (by norm_num))

/-- C3 witness: the concrete 64-frame buffer with concrete data. -/
theorem c3_witness : SFBCARingBuffer.Allocate fmtW 64 = some stD0 ∧
    stD0.Write dataW 10 0 = some stD1 ∧ stD1.Write dataW2 10 1000 = some stD2 ∧
    stD2.GetTimeBounds = some (1000, 1010) ∧ stD2.Read 10 0 = none :=
  ⟨rfl, rfl, rfl, c3_discontinuity fmtW stD0 stD1 stD2 dataW dataW2 rfl rfl rfl⟩

/-- C2: on a freshly allocated buffer with more than 200 frames of capacity,
writing `[0, 100)` and then `[150, 200)` (a forward gap of 50 frames) gives:
a read of `[100, 150)` delivers all-zero (silence) frames, and a read of
`[0, 200)` delivers the first write's data on `[0, 100)`, silence on
`[100, 150)`, and the second write's data on `[150, 200)`, on every channel
stream. -/
theorem c2_gap_silence (format : ASBD) (cap : Nat) (st0 st1 st2 : SFBCARingBuffer)
    (d1 d2 : Nat → Nat → List Nat)
    (hA : SFBCARingBuffer.Allocate format cap = some st0) (hcap : 200 < cap)
    (h1 : st0.Write d1 100 0 = some st1) (h2 : st1.Write d2 50 150 = some st2) :
    (∃ r, st2.Read 50 100 = some r ∧ ∀ c i, c < st0.mChannelStreamCount → i < 50 →
        r c i = silenceFrame format.mBytesPerFrame) ∧
    (∃ r, st2.Read 200 0 = some r ∧ ∀ c i, c < st0.mChannelStreamCount → i < 200 →
        ((i < 100 → r c i = d1 c i) ∧
         (100 ≤ i → i < 150 → r c i = silenceFrame format.mBytesPerFrame) ∧
         (150 ≤ i → r c i = d2 c (i - 150)))) := by
  obtain ⟨hinit, -, -, -, -, -⟩ := SFBCARingBuffer.allocate_inv format cap st0 hA
  subst hinit
  have e1 : (initCARingBuffer format cap).Write d1 100 0
      = some (SFBCARingBuffer.SetTimeBounds
          { initCARingBuffer format cap with
            mBuffers := (writeRange (initCARingBuffer format cap).mBuffers cap 0 d1 100) }
          0 100) := by
    rw [SFBCARingBuffer.write_eq_forward (initCARingBuffer format cap) d1 100 0
      (by norm_num) (by norm_num; omega) (by norm_num) (by norm_num)
      (by norm_num; omega)]
    norm_num
  rw [e1] at h1
  cases h1
  have e2 : (SFBCARingBuffer.SetTimeBounds
        { initCARingBuffer format cap with
          mBuffers := (writeRange (initCARingBuffer format cap).mBuffers cap 0 d1 100) }
        0 100).Write d2 50 150
      = some (SFBCARingBuffer.SetTimeBounds
          { SFBCARingBuffer.SetTimeBounds
              { initCARingBuffer format cap with
                mBuffers := (writeRange (initCARingBuffer format cap).mBuffers cap 0 d1 100) }
              0 100 with
            mBuffers := (writeRange
              (writeRange (writeRange (initCARingBuffer format cap).mBuffers cap 0 d1 100)
                cap 100 (fun _ _ => silenceFrame format.mBytesPerFrame) 50)
              cap 150 d2 50) }
          0 200) := by
    rw [SFBCARingBuffer.write_eq_forward (SFBCARingBuffer.SetTimeBounds
        { initCARingBuffer format cap with
          mBuffers := (writeRange (initCARingBuffer format cap).mBuffers cap 0 d1 100) }
        0 100) d2 50 150
      (by norm_num) (by norm_num; omega) (by norm_num) (by norm_num; omega)
      (by norm_num; omega)]
    norm_num [show Int.toNat 50 = 50 from rfl]
  rw [e2] at h2
  cases h2
  have hGTB := SFBCARingBuffer.getTimeBounds_setTimeBounds
    { SFBCARingBuffer.SetTimeBounds
        { initCARingBuffer format cap with
          mBuffers := (writeRange (initCARingBuffer format cap).mBuffers cap 0 d1 100) }
        0 100 with
      mBuffers := (writeRange
        (writeRange (writeRange (initCARingBuffer format cap).mBuffers cap 0 d1 100)
          cap 100 (fun _ _ => silenceFrame format.mBytesPerFrame) 50)
        cap 150 d2 50) }
    0 200
  constructor
  · refine ⟨_, SFBCARingBuffer.read_eq _ 50 100 0 200 (by norm_num) hGTB (by norm_num)
      (by norm_num), ?_⟩
    intro c i hc hi
    simp only [SFBCARingBuffer.setTimeBounds_mBuffers,
      SFBCARingBuffer.setTimeBounds_mCapacityFrames,
      SFBCARingBuffer.setTimeBounds_mBytesPerFrame, capacity_initCARingBuffer,
      bytesPerFrame_initCARingBuffer]
    split_ifs with hcnd
    · rw [writeRange_miss _ cap 150 d2 50 c (frameSlot ((100 : Int) + (i : Int)) cap) ?_]
      · rw [writeRange_hit _ cap 100 (fun _ _ => silenceFrame format.mBytesPerFrame) 50
          (by omega) i hi c]
      · intro j hj
        rw [show (150 : Int) + (j : Int) = ((150 + j : Nat) : Int) by push_cast; ring,
          show (100 : Int) + (i : Int) = ((100 + i : Nat) : Int) by push_cast; ring,
          frameSlot_cast (150 + j) cap (by omega), frameSlot_cast (100 + i) cap (by omega)]
        omega
    · rfl
  · refine ⟨_, SFBCARingBuffer.read_eq _ 200 0 0 200 (by norm_num) hGTB (by norm_num)
      (by norm_num), ?_⟩
    intro c i hc hi
    simp only [SFBCARingBuffer.setTimeBounds_mBuffers,
      SFBCARingBuffer.setTimeBounds_mCapacityFrames,
      SFBCARingBuffer.setTimeBounds_mBytesPerFrame, capacity_initCARingBuffer,
      bytesPerFrame_initCARingBuffer]
    refine ⟨?_, ?_, ?_⟩
    · intro hi100
      split_ifs with hcnd
      · rw [writeRange_miss _ cap 150 d2 50 c (frameSlot ((0 : Int) + (i : Int)) cap) ?_]
        · rw [writeRange_miss _ cap 100 (fun _ _ => silenceFrame format.mBytesPerFrame) 50
            c (frameSlot ((0 : Int) + (i : Int)) cap) ?_]
          · rw [writeRange_hit _ cap 0 d1 100 (by omega) i hi100 c]
          · intro j hj
            rw [show (100 : Int) + (j : Int) = ((100 + j : Nat) : Int) by push_cast; ring,
              show (0 : Int) + (i : Int) = ((i : Nat) : Int) by omega,
              frameSlot_cast (100 + j) cap (by omega), frameSlot_cast i cap (by omega)]
            omega
        · intro j hj
          rw [show (150 : Int) + (j : Int) = ((150 + j : Nat) : Int) by push_cast; ring,
            show (0 : Int) + (i : Int) = ((i : Nat) : Int) by omega,
            frameSlot_cast (150 + j) cap (by omega), frameSlot_cast i cap (by omega)]
          omega
      · exact absurd hcnd (by push_neg; constructor <;> omega)
    · intro hi100 hi150
      split_ifs with hcnd
      · rw [writeRange_miss _ cap 150 d2 50 c (frameSlot ((0 : Int) + (i : Int)) cap) ?_]
        · rw [show (0 : Int) + (i : Int) = (100 : Int) + ((i - 100 : Nat) : Int) by omega,
            writeRange_hit _ cap 100 (fun _ _ => silenceFrame format.mBytesPerFrame) 50
              (by omega) (i - 100) (by omega) c]
        · intro j hj
          rw [show (150 : Int) + (j : Int) = ((150 + j : Nat) : Int) by push_cast; ring,
            show (0 : Int) + (i : Int) = ((i : Nat) : Int) by omega,
            frameSlot_cast (150 + j) cap (by omega), frameSlot_cast i cap (by omega)]
          omega
      · rfl
    · intro hi150
      split_ifs with hcnd
      · rw [show (0 : Int) + (i : Int) = (150 : Int) + ((i - 150 : Nat) : Int) by omega,
          writeRange_hit _ cap 150 d2 50 (by omega) (i - 150) (by omega) c]
      · exact absurd hcnd (by push_neg; constructor <;> omega)

/-- C2 witness: the concrete 256-frame buffer with the two concrete data
batches. -/
theorem c2_witness : SFBCARingBuffer.Allocate fmtW 256 = some stG0 ∧ 200 < 256 ∧
    stG0.Write dataW 100 0 = some stG1 ∧ stG1.Write dataW2 50 150 = some stG2 ∧
    ((∃ r, stG2.Read 50 100 = some r ∧ ∀ c i, c < stG0.mChannelStreamCount → i < 50 →
        r c i = silenceFrame fmtW.mBytesPerFrame) ∧
     (∃ r, stG2.Read 200 0 = some r ∧ ∀ c i, c < stG0.mChannelStreamCount → i < 200 →
        ((i < 100 → r c i = dataW c i) ∧
         (100 ≤ i → i < 150 → r c i = silenceFrame fmtW.mBytesPerFrame) ∧
         (150 ≤ i → r c i = dataW2 c (i - 150))))) :=
  ⟨rfl, by norm_num, rfl, rfl,
   c2_gap_silence fmtW 256 stG0 stG1 stG2 dataW dataW2 rfl (by norm_num) rfl rfl⟩

/-- C8: in every reachable state of the generic byte ring buffer, the bytes
available to read and to write sum to the capacity; available-to-read is the
write cursor minus the read cursor and available-to-write is the capacity
minus available-to-read. -/
theorem c8_byte_conservation (rb : SFBRingBuffer) (hr : rb.Reachable) :
    rb.BytesAvailableToRead + rb.BytesAvailableToWrite = rb.CapacityBytes ∧
    rb.BytesAvailableToRead = rb.writeCursor - rb.readCursor ∧
    rb.BytesAvailableToWrite = rb.CapacityBytes - rb.BytesAvailableToRead := by
  have key : rb.readCursor ≤ rb.writeCursor ∧
      rb.writeCursor - rb.readCursor ≤ rb.mCapacityBytes := by
    induction hr with
    | alloc byteCount rb h =>
        unfold SFBRingBuffer.Allocate at h
        split_ifs at h
        cases h
        simp
    | write rb bytes hr ih =>
        simp only [SFBRingBuffer.Write, SFBRingBuffer.BytesAvailableToWrite,
          SFBRingBuffer.BytesAvailableToRead] at *
        omega
    | read rb byteCount hr ih =>
        simp only [SFBRingBuffer.Read, SFBRingBuffer.BytesAvailableToRead] at *
        omega
    | reset rb hr ih =>
        simp only [SFBRingBuffer.Reset]
        omega
    | advanceRead rb byteCount hr ih =>
        simp only [SFBRingBuffer.AdvanceReadPosition,
          SFBRingBuffer.BytesAvailableToRead] at *
        omega
    | advanceWrite rb byteCount hr ih =>
        simp only [SFBRingBuffer.AdvanceWritePosition,
          SFBRingBuffer.BytesAvailableToWrite, SFBRingBuffer.BytesAvailableToRead] at *
        omega
  refine ⟨?_, rfl, rfl⟩
  unfold SFBRingBuffer.BytesAvailableToWrite SFBRingBuffer.BytesAvailableToRead
    SFBRingBuffer.CapacityBytes
  omega

/-- C8 witness: the freshly allocated byte ring buffer. -/
theorem c8_witness : rbW.Reachable ∧
    (rbW.BytesAvailableToRead + rbW.BytesAvailableToWrite = rbW.CapacityBytes ∧
     rbW.BytesAvailableToRead = rbW.writeCursor - rbW.readCursor ∧
     rbW.BytesAvailableToWrite = rbW.CapacityBytes - rbW.BytesAvailableToRead) :=
  ⟨SFBRingBuffer.Reachable.alloc 4 rbW rfl,
   c8_byte_conservation rbW (SFBRingBuffer.Reachable.alloc 4 rbW rfl)⟩

/-- C9 counterexample: at `frameCapacity = 65536` with 65536 bytes per frame
the `UInt32` product `frameCapacity * mBytesPerFrame` wraps to zero, so the
buffer's `mDataByteSize` is `0`, not the mathematical product. -/
theorem c9_counterexample :
    ¬ ∀ b, b ∈ (SFBAllocateAudioBufferList fmtBig 65536).mBuffers →
        b.mDataByteSize = 65536 * fmtBig.mBytesPerFrame := by decide

/-- C9 (amended): `SFBAllocateAudioBufferList` returns a list whose
`mNumberBuffers` is the format's channel-stream count, in which every buffer
has `mNumberChannels` equal to the interleaved channel count,
`mDataByteSize` equal to `frameCapacity * mBytesPerFrame` reduced modulo
`2^32` (the `UInt32` product computed by the code), and a data region of
exactly that many bytes, all zero. -/
theorem c9_allocate_buffer_list (format : ASBD) (frameCapacity : Nat) :
    (SFBAllocateAudioBufferList format frameCapacity).mNumberBuffers
      = format.ChannelStreamCount ∧
    ∀ b, b ∈ (SFBAllocateAudioBufferList format frameCapacity).mBuffers →
      b.mNumberChannels = format.InterleavedChannelCount ∧
      b.mDataByteSize = frameCapacity * format.mBytesPerFrame % 2 ^ 32 ∧
      b.mData.length = b.mDataByteSize ∧ ∀ x ∈ b.mData, x = 0 := by
  constructor
  · rfl
  · intro b hb
    simp only [SFBAllocateAudioBufferList, List.mem_map] at hb
    obtain ⟨j, -, hj⟩ := hb
    subst hj
    refine ⟨rfl, rfl, by simp, ?_⟩
    intro x hx
    exact List.eq_of_mem_replicate hx

/-- C9 witness: the stereo format at three frames of capacity. -/
theorem c9_witness :
    ((SFBAllocateAudioBufferList fmtW 3).mNumberBuffers = fmtW.ChannelStreamCount ∧
     ∀ b, b ∈ (SFBAllocateAudioBufferList fmtW 3).mBuffers →
       b.mNumberChannels = fmtW.InterleavedChannelCount ∧
       b.mDataByteSize = 3 * fmtW.mBytesPerFrame % 2 ^ 32 ∧
       b.mData.length = b.mDataByteSize ∧ ∀ x ∈ b.mData, x = 0) :=
  c9_allocate_buffer_list fmtW 3

/-- C10: `ByteStream` operations preserve `readPosition ≤ bufferLength`:
construction starts at position zero; `Read` returns and advances by exactly
`min count (Remaining())` (and copies that many bytes); `Skip`, `Rewind` and
`SetPosition` keep the position within the length; and under the invariant
`Remaining() = Length() - Position()` never underflows. -/
theorem c10_byte_stream_invariant :
    (∀ buf : List Nat,
      (SFB.ByteStream.ofBuffer buf).Position ≤ (SFB.ByteStream.ofBuffer buf).Length) ∧
    (∀ (s : SFB.ByteStream) (count : Nat), s.Position ≤ s.Length →
      ((s.Read count).2.2.Position ≤ (s.Read count).2.2.Length ∧
       (s.Read count).2.1 = min count s.Remaining ∧
       (s.Read count).2.2.Position = s.Position + min count s.Remaining ∧
       (s.mBuffer.length = s.mBufferLength →
         (s.Read count).1.length = min count s.Remaining))) ∧
    (∀ (s : SFB.ByteStream) (count : Nat), s.Position ≤ s.Length →
      (s.Skip count).2.Position ≤ (s.Skip count).2.Length) ∧
    (∀ (s : SFB.ByteStream) (count : Nat), s.Position ≤ s.Length →
      (s.Rewind count).2.Position ≤ (s.Rewind count).2.Length) ∧
    (∀ (s : SFB.ByteStream) (pos : Nat),
      (s.SetPosition pos).2.Position ≤ (s.SetPosition pos).2.Length) ∧
    (∀ s : SFB.ByteStream, s.Position ≤ s.Length → s.Remaining + s.Position = s.Length) := by
  refine ⟨?_, ?_, ?_, ?_, ?_, ?_⟩
  · intro buf
    simp [SFB.ByteStream.ofBuffer, SFB.ByteStream.Position, SFB.ByteStream.Length]
  · intro s count h
    simp only [SFB.ByteStream.Read, SFB.ByteStream.Position, SFB.ByteStream.Length,
      SFB.ByteStream.Remaining] at *
    refine ⟨by omega, trivial, trivial, ?_⟩
    intro hlen
    simp only [List.length_take, List.length_drop]
    omega
  · intro s count h
    simp only [SFB.ByteStream.Skip, SFB.ByteStream.Position, SFB.ByteStream.Length] at *
    omega
  · intro s count h
    simp only [SFB.ByteStream.Rewind, SFB.ByteStream.Position, SFB.ByteStream.Length] at *
    omega
  · intro s pos
    simp only [SFB.ByteStream.SetPosition, SFB.ByteStream.Position, SFB.ByteStream.Length]
    omega
  · intro s h
    simp only [SFB.ByteStream.Remaining, SFB.ByteStream.Position,
      SFB.ByteStream.Length] at *
    omega

/-- C10 witness: a concrete five-byte stream at position 2, read of 4
bytes. -/
theorem c10_witness : bsW.Position ≤ bsW.Length ∧
    ((bsW.Read 4).2.2.Position ≤ (bsW.Read 4).2.2.Length ∧
     (bsW.Read 4).2.1 = min 4 bsW.Remaining ∧
     (bsW.Read 4).2.2.Position = bsW.Position + min 4 bsW.Remaining ∧
     (bsW.mBuffer.length = bsW.mBufferLength →
       (bsW.Read 4).1.length = min 4 bsW.Remaining)) :=
  ⟨by decide, (c10_byte_stream_invariant.2.1 bsW 4 (by decide))⟩
